import Mathlib

/-!
# sconsify: `spotify/spotify.go`

A shallow embedding of the playback controller, the coordinator loop, the
login watcher, the playlist snapshot and the audio bridge of
`src/spotify/spotify.go`, followed by the properties established about them.

Conventions of the embedding

* Calls into collaborators (`session.Player()`, `events`, `os`, the audio
  stream) are recorded, in program order, in a trace kept next to the state.
* A Go pointer that may be `nil` is an `Option`.
* `log.Fatal` and a nil dereference end the process: the operation returns
  `Except.error` carrying the state reached at that point.
* The answer of `player.Load` is not decided by this program; it is an argument
  (`loadOk`) of every operation that can reach the call.
-/

namespace Sconsify

/-! ## Collaborator types (go-libspotify) -/

/-- Values of `sp.TrackAvailability`. -/
inductive TrackAvailability
  | unavailable
  | available
  | notStreamable
  | bannedByArtist
  deriving DecidableEq, Repr

/-- Values of `sp.ConnectionState`. -/
inductive ConnectionState
  | loggedOut
  | loggedIn
  | disconnected
  | undefined
  | offline
  deriving DecidableEq, Repr

/-- Values of `sp.PlaylistType`. -/
inductive PlaylistType
  | playlist
  | startFolder
  | endFolder
  | placeholder
  deriving DecidableEq, Repr

/-- What the program reads from an `*sp.Track`: `Availability()`, the name of
`Artist(0)`, `Name()` and the text of `Duration().String()`. -/
structure Track where
  availability : TrackAvailability
  artistName : String
  name : String
  durationString : String
  deriving DecidableEq, Repr

/-- What the program reads from entry `i` of the playlist container:
`Playlist(i).Name()`, the pointer `Playlist(i)` itself and `PlaylistType(i)`. -/
structure PlaylistEntry where
  name : String
  handle : Nat
  type : PlaylistType
  deriving DecidableEq, Repr

/-- The value handed to `events.NewPlaylist`: a Go `map[string]*sp.Playlist`,
kept as an association list with at most one pair per key. -/
abbrev PlaylistMap := List (String × Nat)

/-- Calls made into collaborators. -/
inductive Call
  | playerLoad (track : Track)
  | playerPlay
  | playerPause
  | setStatus (text : String)
  | sessionLogout
  | removeAll (path : String)
  | eventsShutdown
  | newPlaylist (playlists : Option PlaylistMap)
  deriving DecidableEq, Repr

/-! ## `Spotify` -/

/-- The fields of `Spotify` that the playback controller and the coordinator
read or write, with the trace of collaborator calls. -/
structure Spotify where
  currentTrack : Option Track
  paused : Bool
  cacheLocation : String
  calls : List Call
  deriving DecidableEq, Repr

/-- Record one collaborator call. -/
def Spotify.call (spotify : Spotify) (c : Call) : Spotify :=
  { spotify with calls := spotify.calls ++ [c] }

/-- `fmt.Sprintf("%v: %v - %v [%v]", status, artist, name, duration)` on four
strings. -/
def statusText (status artist name duration : String) : String :=
  status ++ ": " ++ artist ++ " - " ++ name ++ " [" ++ duration ++ "]"

/-- `Spotify.isTrackAvailable`. -/
def isTrackAvailable (track : Track) : Bool :=
  track.availability == TrackAvailability.available

/-- `Spotify.updateStatus`: make `track` current, then publish the status line
(`artist.Wait()` only blocks until the artist metadata is loaded). -/
def updateStatus (spotify : Spotify) (status : String) (track : Track) : Spotify :=
  let spotify := { spotify with currentTrack := some track }
  spotify.call (.setStatus (statusText status track.artistName track.name track.durationString))

/-- `Spotify.play`. -/
def play (spotify : Spotify) (track : Track) (loadOk : Bool) : Except Spotify Spotify :=
  if !isTrackAvailable track then
    .ok (spotify.call (.setStatus "Not available"))
  else
    let spotify := spotify.call (.playerLoad track)
    if !loadOk then
      .error spotify
    else
      let spotify := spotify.call .playerPlay
      .ok (updateStatus spotify "Playing" track)

/-- `Spotify.isPausedOrPlaying`. -/
def isPausedOrPlaying (spotify : Spotify) : Bool :=
  spotify.currentTrack.isSome

/-- `Spotify.playCurrentTrack`. With a nil `currentTrack` the first thing
`play` does, `track.Availability()`, dereferences nil. -/
def playCurrentTrack (spotify : Spotify) (loadOk : Bool) : Except Spotify Spotify :=
  match spotify.currentTrack with
  | none => .error spotify
  | some track =>
    match play spotify track loadOk with
    | .error spotify => .error spotify
    | .ok spotify => .ok { spotify with paused := false }

/-- `Spotify.pauseCurrentTrack`. With a nil `currentTrack` the player is
paused first and `updateStatus` then dereferences nil in `track.Artist(0)`. -/
def pauseCurrentTrack (spotify : Spotify) : Except Spotify Spotify :=
  let spotify := spotify.call .playerPause
  match spotify.currentTrack with
  | none => .error spotify
  | some track =>
    let spotify := updateStatus spotify "Paused" track
    .ok { spotify with paused := true }

/-- `Spotify.pause`. -/
def pause (spotify : Spotify) (loadOk : Bool) : Except Spotify Spotify :=
  if isPausedOrPlaying spotify then
    if spotify.paused then
      playCurrentTrack spotify loadOk
    else
      pauseCurrentTrack spotify
  else
    .ok spotify

/-- `strings.HasSuffix`. -/
def hasSuffix (s suffix : String) : Bool :=
  suffix.data.isSuffixOf s.data

/-- `Spotify.initCacheLocation`: `dir` is the answer of `homedir.Dir()` and
`expand` the one of `homedir.Expand` (`none` for an error). -/
def initCacheLocation (spotify : Spotify) (dir : Option String)
    (expand : String → Option String) : Spotify :=
  match dir with
  | none => spotify
  | some dir =>
    match expand dir with
    | none => spotify
    | some dir =>
      if dir ≠ "" then { spotify with cacheLocation := dir ++ "/.sconsify/cache/" }
      else spotify

/-- `Spotify.deleteCache`. -/
def deleteCache (spotify : Spotify) : Spotify :=
  if hasSuffix spotify.cacheLocation "/.sconsify/cache/" then
    spotify.call (.removeAll spotify.cacheLocation)
  else
    spotify

/-- `Spotify.shutdownSpotify`. -/
def shutdownSpotify (spotify : Spotify) : Spotify :=
  let spotify := spotify.call .sessionLogout
  let spotify := deleteCache spotify
  spotify.call .eventsShutdown

/-! ## The coordinator loop of `finishInitialisation` -/

/-- One receive of the `select` at the end of `finishInitialisation`: a track
from `events.ToPlay`, a value from `events.WaitForPause()` or a value from
`events.WaitForShutdown()`. `loadOk` is the answer `player.Load` would give
while the event is serviced. -/
inductive Command
  | toPlay (track : Track) (loadOk : Bool)
  | pause (loadOk : Bool)
  | shutdown
  deriving DecidableEq, Repr

/-- The body of one `select` case. -/
def service (spotify : Spotify) : Command → Except Spotify Spotify
  | .toPlay track loadOk => play spotify track loadOk
  | .pause loadOk => pause spotify loadOk
  | .shutdown => .ok (shutdownSpotify spotify)

/-- The `for { select { ... } }` loop run over the commands that arrive, in
order of arrival. The loop has no `break` and no `return`: it goes on to the
next receive after every case; `Except.ok` is the state in which the loop
waits once the given commands are used up. -/
def coordinatorLoop (spotify : Spotify) : List Command → Except Spotify Spotify
  | [] => .ok spotify
  | c :: rest =>
    match service spotify c with
    | .error spotify => .error spotify
    | .ok spotify => coordinatorLoop spotify rest

/-- The value built by `&Spotify{events: events}` in `initialiseSpotify`, as
far as the playback fields go (`currentTrack` is `nil`, `paused` is `false`),
with the cache location set by `initCacheLocation`. -/
def initialState (cacheLocation : String) : Spotify :=
  { currentTrack := none, paused := false, cacheLocation := cacheLocation, calls := [] }

/-! ## The playlist snapshot of `finishInitialisation` -/

/-- The Go assignment `m[k] = v` on a map. -/
def mapSet : PlaylistMap → String → Nat → PlaylistMap
  | [], k, v => [(k, v)]
  | (k', v') :: rest, k, v =>
    if k' = k then (k, v) :: rest else (k', v') :: mapSet rest k v

/-- The Go lookup `m[k]` on a map (`none` when the key is absent). -/
def mapGet : PlaylistMap → String → Option Nat
  | [], _ => none
  | (k', v') :: rest, k => if k' = k then some v' else mapGet rest k

/-- The body of the `for i := 0; i < allPlaylists.Playlists(); i++` loop. -/
def addPlaylist (playlists : PlaylistMap) (p : PlaylistEntry) : PlaylistMap :=
  if p.type = PlaylistType.playlist then mapSet playlists p.name p.handle else playlists

/-- The map `playlists` once the loop over the container is over. -/
def buildPlaylists (allPlaylists : List PlaylistEntry) : PlaylistMap :=
  allPlaylists.foldl addPlaylist []

/-- `Spotify.finishInitialisation`: build the map, hand it to
`events.NewPlaylist`, then run the coordinator loop. (The two goroutines it
starts, `pa.player()` and the end-of-track forwarder, do not touch `Spotify`.) -/
def finishInitialisation (spotify : Spotify) (allPlaylists : List PlaylistEntry)
    (commands : List Command) : Except Spotify Spotify :=
  let playlists := buildPlaylists allPlaylists
  let spotify := spotify.call (.newPlaylist (some playlists))
  coordinatorLoop spotify commands

/-! ## `waitForConnectionStateUpdates` -/

/-- What the `select` of `waitForConnectionStateUpdates` can receive: a value
from `session.ConnectionStateUpdates()`, with the answer `ConnectionState()`
gives when it is then asked, or the value from the `timeout` channel. -/
inductive LoginEvent
  | connectionStateUpdate (state : ConnectionState)
  | timeout
  deriving DecidableEq, Repr

/-- `Spotify.isLoggedIn`, on the state the session reports. -/
def isLoggedIn (state : ConnectionState) : Bool :=
  state == ConnectionState.loggedIn

/-- The `for running { select { ... } }` loop, with its two flags. The result
is the value of `loggedIn` when the loop ends and the events not received;
`none` when the events run out while the loop still waits. -/
def waitLoop : Bool → Bool → List LoginEvent → Option (Bool × List LoginEvent)
  | false, loggedIn, events => some (loggedIn, events)
  | true, _, [] => none
  | true, loggedIn, .connectionStateUpdate state :: rest =>
    if isLoggedIn state then waitLoop false true rest else waitLoop true loggedIn rest
  | true, loggedIn, .timeout :: rest => waitLoop false loggedIn rest

/-- `Spotify.waitForConnectionStateUpdates`. -/
def waitForConnectionStateUpdates (events : List LoginEvent) : Option (Bool × List LoginEvent) :=
  waitLoop true false events

/-! ## The audio bridge -/

/-- Fields of `sp.AudioFormat`. -/
structure AudioFormat where
  sampleType : Nat
  sampleRate : Nat
  channels : Nat
  deriving DecidableEq, Repr

/-- `audio`: a format and the bytes of the frames (each entry one byte). -/
structure audio where
  format : AudioFormat
  frames : List Nat
  deriving DecidableEq, Repr

/-- A buffered Go channel of `*audio`: its capacity and its content, oldest
first. -/
structure Chan where
  cap : Nat
  items : List audio
  deriving DecidableEq, Repr

/-- `portAudio`. -/
structure portAudio where
  buffer : Chan
  deriving DecidableEq, Repr

/-- `newPortAudio`: `make(chan *audio, 8)`. -/
def newPortAudio : portAudio :=
  { buffer := { cap := 8, items := [] } }

/-- `portAudio.WriteAudio`: the returned `int` and the bridge afterwards. The
`select` with a `default` case sends when the buffer has room (a receiver
waiting on a buffered channel implies an empty buffer) and else gives up. -/
def portAudio.WriteAudio (pa : portAudio) (format : AudioFormat) (frames : List Nat) :
    Nat × portAudio :=
  let audio : audio := { format := format, frames := frames }
  if frames.length = 0 then
    (0, pa)
  else if pa.buffer.items.length < pa.buffer.cap then
    (frames.length, { pa with buffer := { pa.buffer with items := pa.buffer.items ++ [audio] } })
  else
    (0, pa)

/-- The receive `<-pa.buffer` of `player()`: `none` while the channel is
empty (the consumer stays blocked). -/
def portAudio.receive (pa : portAudio) : Option (audio × portAudio) :=
  match pa.buffer.items with
  | [] => none
  | a :: rest => some (a, { pa with buffer := { pa.buffer with items := rest } })

/-- The `int16` whose 16 bits are the low 16 bits of `bits`. -/
def int16 (bits : Nat) : Int :=
  if bits % 65536 < 32768 then ((bits % 65536 : Nat) : Int)
  else ((bits % 65536 : Nat) : Int) - 65536

/-- `int16(lo) | int16(hi)<<8` on two bytes. -/
def sample (lo hi : Nat) : Int :=
  int16 ((lo % 256) ||| (((hi % 256) <<< 8) % 65536))

/-- The loop `for i := 0; i < len(audio.frames); i += 2 { out[j] = ...; j++ }`
from the values of `i`, `j` and `out` at its head; `none` is an index out of
range. -/
def convertLoop (frames : List Nat) (i j : Nat) (out : List Int) : Option (List Int) :=
  if i < frames.length then
    match frames[i]?, frames[i + 1]? with
    | some lo, some hi =>
      if j < out.length then convertLoop frames (i + 2) (j + 1) (out.set j (sample lo hi))
      else none
    | _, _ => none
  else
    some out
termination_by frames.length - i

/-- The consumer side of `player()`: the block `out` shared with the stream and
the blocks handed over by each `stream.Write()`. -/
structure Player where
  out : List Int
  written : List (List Int)
  deriving DecidableEq, Repr

/-- The state of `player()` when it enters its loop: `make([]int16, 2048*2)`. -/
def Player.start : Player :=
  { out := List.replicate (2048 * 2) 0, written := [] }

/-- One iteration of the loop of `player()` after `audio` was received. -/
def Player.consume (p : Player) (audio : audio) : Option Player :=
  if audio.frames.length ≠ 2048 * 2 * 2 then
    some p
  else
    match convertLoop audio.frames 0 0 p.out with
    | none => none
    | some out => some { out := out, written := p.written ++ [out] }

/-- One step of an interleaving of the producer and the consumer. -/
inductive BridgeOp
  | offer (format : AudioFormat) (frames : List Nat)
  | take
  deriving DecidableEq, Repr

/-- The bridge with two ghost logs: the frames for which `WriteAudio` returned
a length other than 0, and the frames the consumer received, both in order. -/
structure Bridge where
  pa : portAudio
  accepted : List audio
  dequeued : List audio
  deriving DecidableEq, Repr

/-- One step: a `WriteAudio` call, or a receive by `player()` (no step of the
consumer happens while the channel is empty). -/
def Bridge.step (b : Bridge) : BridgeOp → Bridge
  | .offer format frames =>
    let r := b.pa.WriteAudio format frames
    { b with
      pa := r.2
      accepted := if r.1 ≠ 0 then b.accepted ++ [{ format := format, frames := frames }]
                  else b.accepted }
  | .take =>
    match b.pa.receive with
    | none => b
    | some (a, pa) => { b with pa := pa, dequeued := b.dequeued ++ [a] }

/-- Run an interleaving from the freshly made bridge. -/
def Bridge.run (ops : List BridgeOp) : Bridge :=
  ops.foldl Bridge.step { pa := newPortAudio, accepted := [], dequeued := [] }

/-- The texts handed to `events.SetStatus` in a trace, in order. -/
def statusesOf : List Call → List String
  | [] => []
  | .setStatus text :: rest => text :: statusesOf rest
  | _ :: rest => statusesOf rest

/-- The calls made on `session.Player()` in a trace, in order. -/
def playerCallsOf : List Call → List Call
  | [] => []
  | .playerLoad track :: rest => .playerLoad track :: playerCallsOf rest
  | .playerPlay :: rest => .playerPlay :: playerCallsOf rest
  | .playerPause :: rest => .playerPause :: playerCallsOf rest
  | _ :: rest => playerCallsOf rest

/-! ## Sample values used in the closed statements -/

/-- An available track. -/
def trackA : Track :=
  { availability := .available, artistName := "ArtistA", name := "TitleA",
    durationString := "3m25s" }

/-- A second available track. -/
def trackB : Track :=
  { availability := .available, artistName := "ArtistB", name := "TitleB",
    durationString := "4m2s" }

/-- A track that cannot be played. -/
def trackU : Track :=
  { availability := .unavailable, artistName := "ArtistU", name := "TitleU",
    durationString := "1m0s" }

/-- A format as libspotify delivers it. -/
def stereo : AudioFormat :=
  { sampleType := 0, sampleRate := 44100, channels := 2 }

/-- A container with a folder and two regular playlists of different names. -/
def distinctNames : List PlaylistEntry :=
  [{ name := "Rock", handle := 1, type := .playlist },
   { name := "Folder", handle := 2, type := .startFolder },
   { name := "Jazz", handle := 3, type := .playlist },
   { name := "", handle := 4, type := .endFolder }]

/-- A container with two regular playlists of the same name. -/
def sameNames : List PlaylistEntry :=
  [{ name := "Mix", handle := 1, type := .playlist },
   { name := "Mix", handle := 2, type := .playlist }]

/-- A frame of the expected length: 8192 bytes, all 0xFF. -/
@[irreducible]
def fullFrame : audio :=
  { format := stereo, frames := List.replicate 8192 255 }

/-- A cache location as `initCacheLocation` builds it. -/
def cacheDir : String := "/home/u/.sconsify/cache/"

/-! ## Playback controller -/

theorem statusesOf_append (xs ys : List Call) :
    statusesOf (xs ++ ys) = statusesOf xs ++ statusesOf ys := by
  induction xs with
  | nil => rfl
  | cons c xs ih => cases c <;> simp [statusesOf, ih]

theorem playerCallsOf_append (xs ys : List Call) :
    playerCallsOf (xs ++ ys) = playerCallsOf xs ++ playerCallsOf ys := by
  induction xs with
  | nil => rfl
  | cons c xs ih => cases c <;> simp [playerCallsOf, ih]

/-- C3: for every state and every track whose availability is not Available,
`play` returns normally, makes no call on the player (no load, no play, no
pause), leaves `currentTrack` and `paused` as they were, and the only call it
adds to the trace is `SetStatus("Not available")`. -/
theorem play_not_available (spotify : Spotify) (track : Track) (loadOk : Bool)
    (h : track.availability ≠ TrackAvailability.available) :
    ∃ s', play spotify track loadOk = .ok s' ∧
      s'.currentTrack = spotify.currentTrack ∧
      s'.paused = spotify.paused ∧
      s'.calls = spotify.calls ++ [Call.setStatus "Not available"] ∧
      playerCallsOf s'.calls = playerCallsOf spotify.calls := by
  refine ⟨spotify.call (.setStatus "Not available"), ?_, rfl, rfl, rfl, ?_⟩
  · simp [play, isTrackAvailable, h]
  · simp [Spotify.call, playerCallsOf_append, playerCallsOf]

theorem play_not_available_witness :
    ∃ s', play (initialState cacheDir) trackU true = .ok s' ∧
      s'.currentTrack = (initialState cacheDir).currentTrack ∧
      s'.paused = (initialState cacheDir).paused ∧
      s'.calls = (initialState cacheDir).calls ++ [Call.setStatus "Not available"] ∧
      playerCallsOf s'.calls = playerCallsOf (initialState cacheDir).calls :=
  play_not_available (initialState cacheDir) trackU true (by decide)

/-- C2: the state with `trackA` current and `paused = true` is reached by
`play(trackA)` followed by `pause()`. From it `play(trackB)`, with `trackB`
Available and the load succeeding, calls load then play on the player, emits
the one status "Playing: ArtistB - TitleB [4m2s]" and makes `trackB` current,
but `paused` is still `true` afterwards: `play` never writes the flag. -/
theorem play_leaves_paused_set :
    coordinatorLoop (initialState cacheDir) [.toPlay trackA true, .pause true] =
      .ok { currentTrack := some trackA, paused := true, cacheLocation := cacheDir,
            calls := [.playerLoad trackA, .playerPlay,
                      .setStatus "Playing: ArtistA - TitleA [3m25s]",
                      .playerPause, .setStatus "Paused: ArtistA - TitleA [3m25s]"] } ∧
    play { currentTrack := some trackA, paused := true, cacheLocation := cacheDir,
           calls := [] } trackB true =
      .ok { currentTrack := some trackB, paused := true, cacheLocation := cacheDir,
            calls := [.playerLoad trackB, .playerPlay,
                      .setStatus "Playing: ArtistB - TitleB [4m2s]"] } := by
  constructor <;> rfl

/-- C4 (as amended): for every state in which a track `t` is current and
`paused` is false, with `t` Available and the load of the second call
succeeding, two `pause()` calls in a row both return; the first calls
`Pause` on the player, emits "Paused: artist - title [duration]" of `t` and
leaves `paused = true`; the second loads and plays `t` again, emits
"Playing: artist - title [duration]" of `t` and leaves `paused = false`
with `t` still current; these two statuses are the only ones emitted. -/
theorem pause_twice (spotify : Spotify) (t : Track) (loadOk : Bool)
    (hcur : spotify.currentTrack = some t) (hplaying : spotify.paused = false)
    (havail : t.availability = TrackAvailability.available) :
    ∃ s1 s2, pause spotify loadOk = .ok s1 ∧
      s1.paused = true ∧ s1.currentTrack = some t ∧
      s1.calls = spotify.calls ++
        [.playerPause,
         .setStatus (statusText "Paused" t.artistName t.name t.durationString)] ∧
      pause s1 true = .ok s2 ∧
      s2.paused = false ∧ s2.currentTrack = some t ∧
      s2.calls = s1.calls ++
        [.playerLoad t, .playerPlay,
         .setStatus (statusText "Playing" t.artistName t.name t.durationString)] ∧
      statusesOf s2.calls = statusesOf spotify.calls ++
        [statusText "Paused" t.artistName t.name t.durationString,
         statusText "Playing" t.artistName t.name t.durationString] := by
  obtain ⟨cur, paused, loc, calls⟩ := spotify
  simp only at hcur hplaying
  subst hcur hplaying
  simp [pause, isPausedOrPlaying, pauseCurrentTrack, playCurrentTrack, play,
    isTrackAvailable, havail, updateStatus, Spotify.call, statusesOf_append, statusesOf]

theorem pause_twice_witness :
    ∃ s1 s2, pause { initialState cacheDir with currentTrack := some trackA } true = .ok s1 ∧
      s1.paused = true ∧ s1.currentTrack = some trackA ∧
      s1.calls = [] ++
        [.playerPause,
         .setStatus (statusText "Paused" trackA.artistName trackA.name trackA.durationString)] ∧
      pause s1 true = .ok s2 ∧
      s2.paused = false ∧ s2.currentTrack = some trackA ∧
      s2.calls = s1.calls ++
        [.playerLoad trackA, .playerPlay,
         .setStatus (statusText "Playing" trackA.artistName trackA.name trackA.durationString)] ∧
      statusesOf s2.calls = statusesOf [] ++
        [statusText "Paused" trackA.artistName trackA.name trackA.durationString,
         statusText "Playing" trackA.artistName trackA.name trackA.durationString] :=
  pause_twice { initialState cacheDir with currentTrack := some trackA } trackA true rfl rfl rfl

/-- C4 (as stated) fails. With `trackA` current and playing, the first
`pause()` emits the "Paused" status; when the load of the second call fails
the process ends in `log.Fatal` and no second status is emitted. With the
unavailable `trackU` current and playing, the second `pause()` emits
"Not available" instead of a "Playing" status. -/
theorem pause_twice_counterexample :
    (pause { currentTrack := some trackA, paused := false, cacheLocation := cacheDir,
             calls := [] } true =
       .ok { currentTrack := some trackA, paused := true, cacheLocation := cacheDir,
             calls := [.playerPause, .setStatus "Paused: ArtistA - TitleA [3m25s]"] } ∧
     pause { currentTrack := some trackA, paused := true, cacheLocation := cacheDir,
             calls := [.playerPause, .setStatus "Paused: ArtistA - TitleA [3m25s]"] } false =
       .error { currentTrack := some trackA, paused := true, cacheLocation := cacheDir,
                calls := [.playerPause, .setStatus "Paused: ArtistA - TitleA [3m25s]",
                          .playerLoad trackA] }) ∧
    (pause { currentTrack := some trackU, paused := false, cacheLocation := cacheDir,
             calls := [] } true =
       .ok { currentTrack := some trackU, paused := true, cacheLocation := cacheDir,
             calls := [.playerPause, .setStatus "Paused: ArtistU - TitleU [1m0s]"] } ∧
     pause { currentTrack := some trackU, paused := true, cacheLocation := cacheDir,
             calls := [.playerPause, .setStatus "Paused: ArtistU - TitleU [1m0s]"] } true =
       .ok { currentTrack := some trackU, paused := false, cacheLocation := cacheDir,
             calls := [.playerPause, .setStatus "Paused: ArtistU - TitleU [1m0s]",
                       .setStatus "Not available"] }) := by
  refine ⟨⟨?_, ?_⟩, ⟨?_, ?_⟩⟩ <;> rfl

/-- The invariant of the playback fields. -/
theorem service_keeps_invariant (spotify s' : Spotify) (c : Command)
    (hinv : spotify.paused = true → spotify.currentTrack ≠ none)
    (h : service spotify c = .ok s') :
    s'.paused = true → s'.currentTrack ≠ none := by
  obtain ⟨cur, paused, loc, calls⟩ := spotify
  cases c with
  | toPlay track loadOk =>
    simp only [service, play] at h
    split at h
    · cases h; simpa [Spotify.call] using hinv
    · split at h
      · cases h
      · cases h; simp [updateStatus, Spotify.call]
  | pause loadOk =>
    simp only [service, pause, isPausedOrPlaying] at h
    cases cur with
    | none => simp at h; cases h; simpa using hinv
    | some t =>
      cases paused
      · simp [pauseCurrentTrack, updateStatus, Spotify.call] at h
        cases h; simp
      · simp only [Option.isSome_some, if_true, playCurrentTrack] at h
        split at h
        · cases h
        · cases h; simp
  | shutdown =>
    simp only [service, shutdownSpotify, deleteCache] at h
    split at h <;> (cases h; simpa [Spotify.call] using hinv)

theorem coordinatorLoop_keeps_invariant (commands : List Command) :
    ∀ spotify s' : Spotify, (spotify.paused = true → spotify.currentTrack ≠ none) →
      coordinatorLoop spotify commands = .ok s' →
      (s'.paused = true → s'.currentTrack ≠ none) := by
  induction commands with
  | nil =>
    intro spotify s' hinv h
    simp only [coordinatorLoop] at h
    cases h; exact hinv
  | cons c rest ih =>
    intro spotify s' hinv h
    simp only [coordinatorLoop] at h
    cases hs : service spotify c with
    | error e => rw [hs] at h; cases h
    | ok s1 =>
      rw [hs] at h
      exact ih s1 s' (service_keeps_invariant spotify s1 c hinv hs) h

/-- C5: in every state the coordinator reaches from the initial state
(`currentTrack = none`, `paused = false`) by a finite sequence of commands
(play, pause, and shutdown as well), `paused = true` implies that
`currentTrack` is not none; and `pause()` on a state with no current track
returns the state as it is, with nothing added to the trace. -/
theorem paused_implies_current_track (cacheLocation : String) (commands : List Command)
    (s' : Spotify) (h : coordinatorLoop (initialState cacheLocation) commands = .ok s') :
    (s'.paused = true → s'.currentTrack ≠ none) ∧
    (∀ (spotify : Spotify) (loadOk : Bool), spotify.currentTrack = none →
      pause spotify loadOk = .ok spotify) := by
  refine ⟨coordinatorLoop_keeps_invariant commands (initialState cacheLocation) s' ?_ h, ?_⟩
  · simp [initialState]
  · intro spotify loadOk hnone
    simp [pause, isPausedOrPlaying, hnone]

theorem paused_implies_current_track_witness :
    coordinatorLoop (initialState cacheDir) [.toPlay trackA true, .pause true] =
      .ok { currentTrack := some trackA, paused := true, cacheLocation := cacheDir,
            calls := [.playerLoad trackA, .playerPlay,
                      .setStatus "Playing: ArtistA - TitleA [3m25s]",
                      .playerPause, .setStatus "Paused: ArtistA - TitleA [3m25s]"] } ∧
    ((true = true → some trackA ≠ none) ∧
     (∀ (spotify : Spotify) (loadOk : Bool), spotify.currentTrack = none →
       pause spotify loadOk = .ok spotify)) :=
  ⟨rfl, paused_implies_current_track cacheDir [.toPlay trackA true, .pause true] _ rfl⟩

theorem hasSuffix_append (dir suffix : String) : hasSuffix (dir ++ suffix) suffix = true := by
  simp [hasSuffix, List.suffix_append]

/-- C10 (as amended): servicing a shutdown command returns normally and
calls, in this order, `session.Logout()`, `os.RemoveAll` on the cache
location (the call `deleteCache` makes when the location ends in
"/.sconsify/cache/", as every location `dir + "/.sconsify/cache/"` does; for
another location no removal is made) and `events.Shutdown()`; it makes no
other call and leaves `currentTrack`, `paused` and the cache location as they
were. It does not exit the loop: the commands that follow in the sequence are
serviced from the resulting state. -/
theorem shutdown_serviced (spotify : Spotify) (rest : List Command) :
    ∃ s', service spotify .shutdown = .ok s' ∧
      s'.calls = spotify.calls ++
        (Call.sessionLogout ::
          ((if hasSuffix spotify.cacheLocation "/.sconsify/cache/" = true
            then [Call.removeAll spotify.cacheLocation] else []) ++
           [Call.eventsShutdown])) ∧
      (∀ dir : String, spotify.cacheLocation = dir ++ "/.sconsify/cache/" →
        s'.calls = spotify.calls ++
          [.sessionLogout, .removeAll spotify.cacheLocation, .eventsShutdown]) ∧
      s'.currentTrack = spotify.currentTrack ∧ s'.paused = spotify.paused ∧
      s'.cacheLocation = spotify.cacheLocation ∧
      coordinatorLoop spotify (.shutdown :: rest) = coordinatorLoop s' rest := by
  refine ⟨shutdownSpotify spotify, rfl, ?_, ?_, ?_, ?_, ?_, rfl⟩
  · by_cases h : hasSuffix spotify.cacheLocation "/.sconsify/cache/" = true <;>
      simp [shutdownSpotify, deleteCache, Spotify.call, h]
  · intro dir hloc
    simp [shutdownSpotify, deleteCache, Spotify.call, hloc, hasSuffix_append]
  · by_cases h : hasSuffix spotify.cacheLocation "/.sconsify/cache/" = true <;>
      simp [shutdownSpotify, deleteCache, Spotify.call, h]
  · by_cases h : hasSuffix spotify.cacheLocation "/.sconsify/cache/" = true <;>
      simp [shutdownSpotify, deleteCache, Spotify.call, h]
  · by_cases h : hasSuffix spotify.cacheLocation "/.sconsify/cache/" = true <;>
      simp [shutdownSpotify, deleteCache, Spotify.call, h]

theorem shutdown_serviced_witness :
    ∃ s', service (initialState ("/home/u" ++ "/.sconsify/cache/")) .shutdown = .ok s' ∧
      ("/home/u" ++ "/.sconsify/cache/" = "/home/u" ++ "/.sconsify/cache/" ∧
        s'.calls = (initialState ("/home/u" ++ "/.sconsify/cache/")).calls ++
          [.sessionLogout,
           .removeAll (initialState ("/home/u" ++ "/.sconsify/cache/")).cacheLocation,
           .eventsShutdown]) ∧
      s'.currentTrack = none ∧ s'.paused = false ∧
      coordinatorLoop (initialState ("/home/u" ++ "/.sconsify/cache/"))
          (.shutdown :: [.toPlay trackA true]) =
        coordinatorLoop s' [.toPlay trackA true] :=
  match shutdown_serviced (initialState ("/home/u" ++ "/.sconsify/cache/"))
      [.toPlay trackA true] with
  | ⟨s', hs, _, hdir, hcur, hpaused, _, hloop⟩ =>
    ⟨s', hs, ⟨rfl, hdir "/home/u" rfl⟩, hcur, hpaused, hloop⟩

/-- C10 (as stated) fails: with a play command behind a shutdown command, the
loop services the shutdown (logout, cache removal, notification) and then
services the play command too: the track is loaded and played and its status
emitted after `events.Shutdown()`. -/
theorem shutdown_counterexample :
    coordinatorLoop (initialState cacheDir) [.shutdown, .toPlay trackA true] =
      .ok { currentTrack := some trackA, paused := false, cacheLocation := cacheDir,
            calls := [.sessionLogout, .removeAll cacheDir, .eventsShutdown,
                      .playerLoad trackA, .playerPlay,
                      .setStatus "Playing: ArtistA - TitleA [3m25s]"] } := by
  rfl

/-! ## Audio bridge: producer side -/

/-- C1 (as amended): on the queue of capacity 8, for every frame offered with
`WriteAudio`: if the queue already holds 8 frames, the call returns 0 and the
queue is unchanged; if the queue holds fewer than 8 frames and the frame is
not empty, the call returns `len(frames)` and the queue is the old one with
the new frame appended at the tail (occupancy one more); an empty frame is
never enqueued: the call returns 0 and the queue is unchanged. -/
theorem WriteAudio_offer (pa : portAudio) (format : AudioFormat) (frames : List Nat)
    (hcap : pa.buffer.cap = 8) :
    (pa.buffer.items.length = 8 → pa.WriteAudio format frames = (0, pa)) ∧
    (pa.buffer.items.length < 8 → frames ≠ [] →
      pa.WriteAudio format frames =
        (frames.length,
         { buffer := { cap := 8,
                       items := pa.buffer.items ++ [{ format := format, frames := frames }] } }) ∧
      (pa.WriteAudio format frames).2.buffer.items.length = pa.buffer.items.length + 1) ∧
    (frames = [] → pa.WriteAudio format frames = (0, pa)) := by
  obtain ⟨⟨cap, items⟩⟩ := pa
  simp only at hcap
  subst hcap
  refine ⟨?_, ?_, ?_⟩
  · intro hfull
    simp only at hfull
    simp [portAudio.WriteAudio, hfull]
  · intro hroom hne
    simp only at hroom
    simp [portAudio.WriteAudio, hroom, hne]
  · intro hempty
    simp [portAudio.WriteAudio, hempty]

theorem WriteAudio_offer_witness :
    (newPortAudio.buffer.items.length = 8 → newPortAudio.WriteAudio stereo [1, 2] = (0, newPortAudio)) ∧
    (newPortAudio.buffer.items.length < 8 → [1, 2] ≠ [] →
      newPortAudio.WriteAudio stereo [1, 2] =
        (([1, 2] : List Nat).length,
         { buffer := { cap := 8,
                       items := newPortAudio.buffer.items ++
                         [{ format := stereo, frames := [1, 2] }] } }) ∧
      (newPortAudio.WriteAudio stereo [1, 2]).2.buffer.items.length =
        newPortAudio.buffer.items.length + 1) ∧
    (([1, 2] : List Nat) = [] → newPortAudio.WriteAudio stereo [1, 2] = (0, newPortAudio)) :=
  WriteAudio_offer newPortAudio stereo [1, 2] rfl

/-- C1 (as stated) fails: the fresh queue holds 0 frames, fewer than 8, and
`WriteAudio` with an empty frame returns 0 and leaves the queue empty: the
occupancy does not go up by one. -/
theorem WriteAudio_empty_frame_counterexample :
    newPortAudio.buffer.cap = 8 ∧ newPortAudio.buffer.items.length < 8 ∧
    newPortAudio.WriteAudio stereo [] = (0, newPortAudio) ∧
    ¬ ((newPortAudio.WriteAudio stereo []).2.buffer.items.length =
        newPortAudio.buffer.items.length + 1) := by
  decide

theorem Bridge.step_keeps_fifo (b : Bridge) (op : BridgeOp)
    (h : b.accepted = b.dequeued ++ b.pa.buffer.items) :
    (b.step op).accepted = (b.step op).dequeued ++ (b.step op).pa.buffer.items := by
  obtain ⟨⟨⟨cap, items⟩⟩, accepted, dequeued⟩ := b
  simp only at h
  cases op with
  | offer format frames =>
    simp only [Bridge.step, portAudio.WriteAudio]
    split
    · simpa using h
    · rename_i hne
      split
      · simp [hne, h]
      · simpa using h
  | take =>
    cases items with
    | nil => simpa [Bridge.step, portAudio.receive] using h
    | cons a rest => simp [Bridge.step, portAudio.receive, h]

theorem Bridge.foldl_keeps_fifo (ops : List BridgeOp) :
    ∀ b : Bridge, b.accepted = b.dequeued ++ b.pa.buffer.items →
      (ops.foldl Bridge.step b).accepted =
        (ops.foldl Bridge.step b).dequeued ++ (ops.foldl Bridge.step b).pa.buffer.items := by
  induction ops with
  | nil => intro b h; simpa using h
  | cons op rest ih =>
    intro b h
    simp only [List.foldl_cons]
    exact ih (b.step op) (Bridge.step_keeps_fifo b op h)

/-- C8: after every finite interleaving of `WriteAudio` calls and receives by
the consumer on the capacity-8 queue, starting empty, the frames received so
far followed by the frames still queued are exactly the accepted frames in
the order of their offer; so the received frames are a prefix of the accepted
ones: none reordered, duplicated or skipped. -/
theorem dequeued_prefix_of_accepted (ops : List BridgeOp) :
    (Bridge.run ops).accepted =
        (Bridge.run ops).dequeued ++ (Bridge.run ops).pa.buffer.items ∧
    (Bridge.run ops).dequeued <+: (Bridge.run ops).accepted := by
  have h := Bridge.foldl_keeps_fifo ops
    { pa := newPortAudio, accepted := [], dequeued := [] } rfl
  exact ⟨h, ⟨_, h.symm⟩⟩

/-! ## Login watcher -/

theorem waitLoop_running (pre post : List LoginEvent) (loggedIn : Bool)
    (hpre : LoginEvent.timeout ∉ pre) :
    ∃ r before stop rest,
      waitLoop true loggedIn (pre ++ LoginEvent.timeout :: post) = some (r, rest) ∧
      pre ++ LoginEvent.timeout :: post = before ++ stop :: rest ∧
      (∀ e ∈ before, e ≠ LoginEvent.timeout ∧
        e ≠ LoginEvent.connectionStateUpdate ConnectionState.loggedIn) ∧
      ((stop = LoginEvent.connectionStateUpdate ConnectionState.loggedIn ∧ r = true ∧
          LoginEvent.connectionStateUpdate ConnectionState.loggedIn ∈ pre) ∨
       (stop = LoginEvent.timeout ∧ r = loggedIn ∧
          LoginEvent.connectionStateUpdate ConnectionState.loggedIn ∉ pre)) := by
  induction pre with
  | nil =>
    exact ⟨loggedIn, [], .timeout, post, by simp [waitLoop], by simp, by simp, by simp⟩
  | cons e pre ih =>
    have hpre' : LoginEvent.timeout ∉ pre := fun hm => hpre (List.mem_cons_of_mem _ hm)
    cases e with
    | timeout => exact absurd (List.mem_cons_self _ _) hpre
    | connectionStateUpdate state =>
      by_cases hs : state = ConnectionState.loggedIn
      · subst hs
        exact ⟨true, [], .connectionStateUpdate .loggedIn, pre ++ .timeout :: post,
          by simp [waitLoop, isLoggedIn], by simp, by simp, by simp⟩
      · obtain ⟨r, before, stop, rest, hrun, hsplit, hbefore, hstop⟩ := ih hpre'
        refine ⟨r, .connectionStateUpdate state :: before, stop, rest, ?_, ?_, ?_, ?_⟩
        · simpa [waitLoop, isLoggedIn, hs] using hrun
        · simp [hsplit]
        · intro e he
          rcases List.mem_cons.1 he with rfl | he
          · simp [hs]
          · exact hbefore e he
        · rcases hstop with ⟨h1, h2, h3⟩ | ⟨h1, h2, h3⟩
          · exact Or.inl ⟨h1, h2, List.mem_cons_of_mem _ h3⟩
          · refine Or.inr ⟨h1, h2, ?_⟩
            simp [h3, Ne.symm hs]

/-- C7: for every event sequence `pre ++ timeout :: post` in which the timer
event is the first of its kind, `waitForConnectionStateUpdates` returns; it
returns true if and only if a notification observed with state LoggedIn
occurs in `pre`, that is strictly before the timer event, and false
otherwise; the event it returns at is the first one that is either such a
notification or the timer event, and every event after that one is left
unconsumed. -/
theorem waitForConnectionStateUpdates_spec (pre post : List LoginEvent)
    (hpre : LoginEvent.timeout ∉ pre) :
    ∃ r before stop rest,
      waitForConnectionStateUpdates (pre ++ LoginEvent.timeout :: post) = some (r, rest) ∧
      (r = true ↔ LoginEvent.connectionStateUpdate ConnectionState.loggedIn ∈ pre) ∧
      pre ++ LoginEvent.timeout :: post = before ++ stop :: rest ∧
      (∀ e ∈ before, e ≠ LoginEvent.timeout ∧
        e ≠ LoginEvent.connectionStateUpdate ConnectionState.loggedIn) ∧
      (stop = (if r then LoginEvent.connectionStateUpdate ConnectionState.loggedIn
               else LoginEvent.timeout)) := by
  obtain ⟨r, before, stop, rest, hrun, hsplit, hbefore, hstop⟩ :=
    waitLoop_running pre post false hpre
  refine ⟨r, before, stop, rest, hrun, ?_, hsplit, hbefore, ?_⟩
  · rcases hstop with ⟨_, h2, h3⟩ | ⟨_, h2, h3⟩
    · simp [h2, h3]
    · simp [h2, h3]
  · rcases hstop with ⟨h1, h2, _⟩ | ⟨h1, h2, _⟩
    · simp [h1, h2]
    · simp [h1, h2]

theorem waitForConnectionStateUpdates_spec_witness :
    ∃ r before stop rest,
      waitForConnectionStateUpdates
        ([.connectionStateUpdate .offline, .connectionStateUpdate .loggedIn] ++
          LoginEvent.timeout :: [.connectionStateUpdate .loggedIn]) = some (r, rest) ∧
      (r = true ↔ LoginEvent.connectionStateUpdate ConnectionState.loggedIn ∈
        [LoginEvent.connectionStateUpdate .offline, .connectionStateUpdate .loggedIn]) ∧
      [.connectionStateUpdate .offline, .connectionStateUpdate .loggedIn] ++
          LoginEvent.timeout :: [.connectionStateUpdate .loggedIn] = before ++ stop :: rest ∧
      (∀ e ∈ before, e ≠ LoginEvent.timeout ∧
        e ≠ LoginEvent.connectionStateUpdate ConnectionState.loggedIn) ∧
      (stop = (if r then LoginEvent.connectionStateUpdate ConnectionState.loggedIn
               else LoginEvent.timeout)) :=
  waitForConnectionStateUpdates_spec
    [.connectionStateUpdate .offline, .connectionStateUpdate .loggedIn]
    [.connectionStateUpdate .loggedIn] (by decide)

/-! ## Playlist snapshot -/

theorem mem_mapSet (m : PlaylistMap) (k : String) (v : Nat) (e : String × Nat)
    (he : e ∈ mapSet m k v) : e = (k, v) ∨ e ∈ m := by
  induction m with
  | nil => simpa [mapSet] using he
  | cons x rest ih =>
    obtain ⟨k', v'⟩ := x
    by_cases hk : k' = k
    · simp only [mapSet, hk, if_true, List.mem_cons] at he
      rcases he with he | he
      · exact Or.inl he
      · exact Or.inr (List.mem_cons_of_mem _ he)
    · simp only [mapSet, hk, if_false, List.mem_cons] at he
      rcases he with he | he
      · exact Or.inr (he ▸ List.mem_cons_self _ _)
      · rcases ih he with h | h
        · exact Or.inl h
        · exact Or.inr (List.mem_cons_of_mem _ h)

theorem mapSet_mem_self (m : PlaylistMap) (k : String) (v : Nat) :
    (k, v) ∈ mapSet m k v := by
  induction m with
  | nil => simp [mapSet]
  | cons x rest ih =>
    obtain ⟨k', v'⟩ := x
    by_cases hk : k' = k
    · simp [mapSet, hk]
    · simp only [mapSet, hk, if_false]
      exact List.mem_cons_of_mem _ ih

theorem mapSet_mem_of_ne (m : PlaylistMap) (k : String) (v : Nat) (e : String × Nat)
    (he : e ∈ m) (hne : e.1 ≠ k) : e ∈ mapSet m k v := by
  induction m with
  | nil => cases he
  | cons x rest ih =>
    obtain ⟨k', v'⟩ := x
    by_cases hk : k' = k
    · simp only [mapSet, hk, if_true]
      rcases List.mem_cons.1 he with he | he
      · subst he
        exact absurd hk hne
      · exact List.mem_cons_of_mem _ he
    · simp only [mapSet, hk, if_false]
      rcases List.mem_cons.1 he with he | he
      · exact he ▸ List.mem_cons_self _ _
      · exact List.mem_cons_of_mem _ (ih he)

theorem mapSet_length_of_new (m : PlaylistMap) (k : String) (v : Nat)
    (hnew : ∀ e ∈ m, e.1 ≠ k) : (mapSet m k v).length = m.length + 1 := by
  induction m with
  | nil => simp [mapSet]
  | cons x rest ih =>
    obtain ⟨k', v'⟩ := x
    have hk : k' ≠ k := hnew (k', v') (List.mem_cons_self _ _)
    simp only [mapSet, hk, if_false, List.length_cons]
    rw [ih (fun e he => hnew e (List.mem_cons_of_mem _ he))]

theorem buildPlaylists_append (xs : List PlaylistEntry) (p : PlaylistEntry) :
    buildPlaylists (xs ++ [p]) = addPlaylist (buildPlaylists xs) p := by
  simp [buildPlaylists, List.foldl_append]

theorem buildPlaylists_distinct (all : List PlaylistEntry) :
    ((all.filter (fun p => decide (p.type = PlaylistType.playlist))).map
        PlaylistEntry.name).Nodup →
    (∀ p ∈ all, p.type = PlaylistType.playlist →
        (p.name, p.handle) ∈ buildPlaylists all) ∧
    (∀ e ∈ buildPlaylists all,
        ∃ p ∈ all, p.type = PlaylistType.playlist ∧ e = (p.name, p.handle)) ∧
    (buildPlaylists all).length =
      (all.filter (fun p => decide (p.type = PlaylistType.playlist))).length := by
  induction all using List.reverseRecOn with
  | nil =>
    intro _
    simp [buildPlaylists]
  | append_singleton xs p ih =>
    intro hnodup
    rw [buildPlaylists_append]
    by_cases hp : p.type = PlaylistType.playlist
    · have hfilter : (xs ++ [p]).filter (fun p => decide (p.type = PlaylistType.playlist)) =
          xs.filter (fun p => decide (p.type = PlaylistType.playlist)) ++ [p] := by
        simp [List.filter_append, hp]
      rw [hfilter, List.map_append, List.nodup_append] at hnodup
      obtain ⟨hxs, -, hdisj⟩ := hnodup
      obtain ⟨ha, hb, hc⟩ := ih hxs
      have hnew : ∀ e ∈ buildPlaylists xs, e.1 ≠ p.name := by
        intro e he hname
        obtain ⟨q, hq, hqt, rfl⟩ := hb e he
        refine hdisj (a := q.name) ?_ ?_
        · exact List.mem_map.2 ⟨q, List.mem_filter.2 ⟨hq, by simp [hqt]⟩, rfl⟩
        · simp at hname
          simp [hname]
      simp only [addPlaylist, hp, if_true]
      refine ⟨?_, ?_, ?_⟩
      · intro q hq hqt
        rcases List.mem_append.1 hq with hq | hq
        · exact mapSet_mem_of_ne _ _ _ _ (ha q hq hqt) (hnew _ (ha q hq hqt))
        · have : q = p := by simpa using hq
          subst this
          exact mapSet_mem_self _ _ _
      · intro e he
        rcases mem_mapSet _ _ _ _ he with he | he
        · exact ⟨p, by simp, hp, he⟩
        · obtain ⟨q, hq, hqt, heq⟩ := hb e he
          exact ⟨q, List.mem_append_left _ hq, hqt, heq⟩
      · rw [mapSet_length_of_new _ _ _ hnew, hfilter, List.length_append, hc]
        rfl
    · have hfilter : (xs ++ [p]).filter (fun p => decide (p.type = PlaylistType.playlist)) =
          xs.filter (fun p => decide (p.type = PlaylistType.playlist)) := by
        simp [List.filter_append, hp]
      rw [hfilter] at hnodup
      obtain ⟨ha, hb, hc⟩ := ih hnodup
      simp only [addPlaylist, hp, if_false]
      refine ⟨?_, ?_, ?_⟩
      · intro q hq hqt
        rcases List.mem_append.1 hq with hq | hq
        · exact ha q hq hqt
        · have : q = p := by simpa using hq
          subst this
          exact absurd hqt hp
      · intro e he
        obtain ⟨q, hq, hqt, heq⟩ := hb e he
        exact ⟨q, List.mem_append_left _ hq, hqt, heq⟩
      · rw [hfilter, hc]

/-- C9 (as amended): for every enumerated list of playlists in which no two
playlists of the regular type bear the same name, `finishInitialisation`
hands to `events.NewPlaylist` a map that holds the entry (name, handle) of
every playlist of the regular type, holds no entry that is not the one of a
regular playlist of the list, and so has exactly as many entries as the list
has regular playlists. -/
theorem finishInitialisation_snapshot (spotify : Spotify) (all : List PlaylistEntry)
    (hnames : ((all.filter (fun p => decide (p.type = PlaylistType.playlist))).map
        PlaylistEntry.name).Nodup) :
    finishInitialisation spotify all [] =
      .ok (spotify.call (.newPlaylist (some (buildPlaylists all)))) ∧
    (∀ p ∈ all, p.type = PlaylistType.playlist →
        (p.name, p.handle) ∈ buildPlaylists all) ∧
    (∀ e ∈ buildPlaylists all,
        ∃ p ∈ all, p.type = PlaylistType.playlist ∧ e = (p.name, p.handle)) ∧
    (∀ p ∈ all, p.type ≠ PlaylistType.playlist →
        (∀ q ∈ all, q.type = PlaylistType.playlist → q.handle ≠ p.handle) →
        (p.name, p.handle) ∉ buildPlaylists all) ∧
    (buildPlaylists all).length =
      (all.filter (fun p => decide (p.type = PlaylistType.playlist))).length := by
  obtain ⟨ha, hb, hc⟩ := buildPlaylists_distinct all hnames
  refine ⟨rfl, ha, hb, ?_, hc⟩
  intro p _ _ hhandles hmem
  obtain ⟨q, hq, hqt, heq⟩ := hb _ hmem
  exact hhandles q hq hqt (by simpa using (congrArg Prod.snd heq).symm)

theorem finishInitialisation_snapshot_witness :
    ((distinctNames.filter (fun p => decide (p.type = PlaylistType.playlist))).map
        PlaylistEntry.name).Nodup ∧
    (finishInitialisation (initialState cacheDir) distinctNames [] =
      .ok ((initialState cacheDir).call (.newPlaylist (some (buildPlaylists distinctNames)))) ∧
    (∀ p ∈ distinctNames, p.type = PlaylistType.playlist →
        (p.name, p.handle) ∈ buildPlaylists distinctNames) ∧
    (∀ e ∈ buildPlaylists distinctNames,
        ∃ p ∈ distinctNames, p.type = PlaylistType.playlist ∧ e = (p.name, p.handle)) ∧
    (∀ p ∈ distinctNames, p.type ≠ PlaylistType.playlist →
        (∀ q ∈ distinctNames, q.type = PlaylistType.playlist → q.handle ≠ p.handle) →
        (p.name, p.handle) ∉ buildPlaylists distinctNames) ∧
    (buildPlaylists distinctNames).length =
      (distinctNames.filter (fun p => decide (p.type = PlaylistType.playlist))).length) :=
  ⟨by decide, finishInitialisation_snapshot (initialState cacheDir) distinctNames (by decide)⟩

/-- C9 (as stated) fails: with two regular playlists both named "Mix", the
second assignment to the map replaces the first: the snapshot published has
one entry, not two, and holds no entry for the first playlist. -/
theorem finishInitialisation_snapshot_counterexample :
    (∀ p ∈ sameNames, p.type = PlaylistType.playlist) ∧
    sameNames.length = 2 ∧
    finishInitialisation (initialState cacheDir) sameNames [] =
      .ok { currentTrack := none, paused := false, cacheLocation := cacheDir,
            calls := [.newPlaylist (some [("Mix", 2)])] } ∧
    buildPlaylists sameNames = [("Mix", 2)] ∧
    (buildPlaylists sameNames).length = 1 ∧
    ("Mix", 1) ∉ buildPlaylists sameNames := by
  refine ⟨by decide, rfl, rfl, rfl, rfl, by decide⟩

/-! ## Audio bridge: consumer side -/

theorem sample_eq (lo hi : Nat) (hlo : lo < 256) (hhi : hi < 256) :
    sample lo hi = int16 (lo + 256 * hi) := by
  have h1 : lo % 256 = lo := Nat.mod_eq_of_lt hlo
  have h2 : hi % 256 = hi := Nat.mod_eq_of_lt hhi
  have h3 : hi <<< 8 = 2 ^ 8 * hi := by rw [Nat.shiftLeft_eq, Nat.mul_comm]
  have h4 : (2 ^ 8 * hi) % 65536 = 2 ^ 8 * hi := Nat.mod_eq_of_lt (by omega)
  have h5 : 2 ^ 8 * hi + lo = 2 ^ 8 * hi ||| lo := Nat.mul_add_lt_is_or (by omega) hi
  unfold sample
  rw [h1, h2, h3, h4, Nat.lor_comm, ← h5]
  congr 1
  omega

theorem convertLoop_spec (frames : List Nat) (n : Nat) (hlen : frames.length = 2 * n) :
    ∀ (d k : Nat) (out : List Int), d = n - k → k ≤ n → n ≤ out.length →
      ∃ out', convertLoop frames (2 * k) k out = some out' ∧
        out'.length = out.length ∧
        (∀ j, j < k → out'[j]? = out[j]?) ∧
        (∀ j lo hi, k ≤ j → j < n → frames[2 * j]? = some lo →
          frames[2 * j + 1]? = some hi → out'[j]? = some (sample lo hi)) ∧
        (∀ j, n ≤ j → out'[j]? = out[j]?) := by
  intro d
  induction d with
  | zero =>
    intro k out hd hk hout
    have hkn : k = n := by omega
    subst hkn
    refine ⟨out, ?_, rfl, fun _ _ => rfl, ?_, fun _ _ => rfl⟩
    · rw [convertLoop]
      simp [hlen]
    · intro j lo hi h1 h2
      omega
  | succ d ih =>
    intro k out hd hk hout
    have hkn : k < n := by omega
    have hi0 : 2 * k < frames.length := by omega
    have hi1 : 2 * k + 1 < frames.length := by omega
    have hj : k < out.length := by omega
    obtain ⟨out', hrun, hlen', hlow, hmid, hhigh⟩ :=
      ih (k + 1) (out.set k (sample frames[2 * k] frames[2 * k + 1]))
        (by omega) (by omega) (by simpa using hout)
    refine ⟨out', ?_, ?_, ?_, ?_, ?_⟩
    · rw [convertLoop]
      simp only [hi0, if_true, List.getElem?_eq_getElem hi0, List.getElem?_eq_getElem hi1, hj]
      exact hrun
    · simpa using hlen'
    · intro j hjk
      rw [hlow j (by omega), List.getElem?_set_ne (by omega)]
    · intro j lo hi h1 h2 hlo hhi
      by_cases hjk : j = k
      · subst hjk
        rw [hlow j (by omega), List.getElem?_set_self hj]
        rw [List.getElem?_eq_getElem hi0] at hlo
        rw [List.getElem?_eq_getElem hi1] at hhi
        cases hlo; cases hhi
        rfl
      · exact hmid j lo hi (by omega) h2 hlo hhi
    · intro j hjn
      rw [hhigh j hjn, List.getElem?_set_ne (by omega)]

/-- C6: one iteration of the loop of `player()` on a received frame with
bytes `b`, the block `out` having its 4096 entries. If `len(b) = 8192`, the
iteration ends without an index out of range, the block keeps its length, it
is handed to `stream.Write()` exactly once, and every `out[j]` for
`0 <= j < 4096` is the signed 16-bit value of low byte `b[2j]` and high byte
`b[2j+1]`: with `u = b[2j] + 256*b[2j+1]`, it is `u` when `u < 32768` and
`u - 65536` otherwise, so it lies between -32768 and 32767 and is congruent
to `u` modulo 65536. If `len(b)` is anything else, the block and the list of
written blocks are as before. -/
theorem Player.consume_spec (p : Player) (a : audio)
    (hout : p.out.length = 2048 * 2) (hbytes : ∀ x ∈ a.frames, x < 256) :
    (∀ (hlen : a.frames.length = 2 * 2 * 2048), ∃ out,
      p.consume a = some { out := out, written := p.written ++ [out] } ∧
      out.length = 2048 * 2 ∧
      ∀ (j : Nat) (hj : j < 4096), ∃ v : Int,
        out[j]? = some v ∧
        v = (if a.frames[2 * j] + 256 * a.frames[2 * j + 1] < 32768
             then ((a.frames[2 * j] + 256 * a.frames[2 * j + 1] : Nat) : Int)
             else ((a.frames[2 * j] + 256 * a.frames[2 * j + 1] : Nat) : Int) - 65536) ∧
        -32768 ≤ v ∧ v < 32768 ∧
        v % 65536 = ((a.frames[2 * j] + 256 * a.frames[2 * j + 1] : Nat) : Int)) ∧
    (a.frames.length ≠ 2 * 2 * 2048 → p.consume a = some p) := by
  constructor
  · intro hlen
    obtain ⟨out, hrun, hlen', -, hmid, -⟩ :=
      convertLoop_spec a.frames 4096 (by omega) 4096 0 p.out rfl (by omega) (by omega)
    refine ⟨out, ?_, by omega, ?_⟩
    · have hrun0 : convertLoop a.frames 0 0 p.out = some out := hrun
      simp [Player.consume, hlen, hrun0]
    · intro j hj
      have h0 : 2 * j < a.frames.length := by omega
      have h1 : 2 * j + 1 < a.frames.length := by omega
      have hlo : a.frames[2 * j] < 256 := hbytes _ (List.getElem_mem _)
      have hhi : a.frames[2 * j + 1] < 256 := hbytes _ (List.getElem_mem _)
      refine ⟨int16 (a.frames[2 * j] + 256 * a.frames[2 * j + 1]), ?_, ?_, ?_, ?_, ?_⟩
      · rw [hmid j _ _ (by omega) hj (List.getElem?_eq_getElem h0)
          (List.getElem?_eq_getElem h1)]
        rw [sample_eq _ _ hlo hhi]
      · have hsmall : (a.frames[2 * j] + 256 * a.frames[2 * j + 1]) % 65536 =
            a.frames[2 * j] + 256 * a.frames[2 * j + 1] := Nat.mod_eq_of_lt (by omega)
        unfold int16
        rw [hsmall]
      · unfold int16
        split <;> omega
      · unfold int16
        split <;> omega
      · unfold int16
        split <;> omega
  · intro hlen
    simp [Player.consume, hlen]

theorem Player.consume_spec_witness :
    (Player.start.out.length = 2048 * 2 ∧ (∀ x ∈ fullFrame.frames, x < 256) ∧
      fullFrame.frames.length = 2 * 2 * 2048) ∧
    (sample 255 255 = -1 ∧ sample 0 128 = -32768 ∧ sample 255 127 = 32767 ∧
      sample 1 0 = 1) ∧
    ((∀ (hlen : fullFrame.frames.length = 2 * 2 * 2048), ∃ out,
      Player.start.consume fullFrame =
        some { out := out, written := Player.start.written ++ [out] } ∧
      out.length = 2048 * 2 ∧
      ∀ (j : Nat) (hj : j < 4096), ∃ v : Int,
        out[j]? = some v ∧
        v = (if fullFrame.frames[2 * j] + 256 * fullFrame.frames[2 * j + 1] < 32768
             then ((fullFrame.frames[2 * j] + 256 * fullFrame.frames[2 * j + 1] : Nat) : Int)
             else ((fullFrame.frames[2 * j] + 256 * fullFrame.frames[2 * j + 1] : Nat) : Int)
                    - 65536) ∧
        -32768 ≤ v ∧ v < 32768 ∧
        v % 65536 =
          ((fullFrame.frames[2 * j] + 256 * fullFrame.frames[2 * j + 1] : Nat) : Int)) ∧
    (fullFrame.frames.length ≠ 2 * 2 * 2048 →
      Player.start.consume fullFrame = some Player.start)) :=
  have hout : Player.start.out.length = 2048 * 2 := List.length_replicate _ _
  have hbytes : ∀ x ∈ fullFrame.frames, x < 256 := by
    intro x hx
    unfold fullFrame at hx
    have : x = 255 := List.eq_of_mem_replicate hx
    omega
  have hlen : fullFrame.frames.length = 2 * 2 * 2048 := by
    unfold fullFrame
    exact List.length_replicate _ _
  ⟨⟨hout, hbytes, hlen⟩, by decide,
    Player.consume_spec Player.start fullFrame hout hbytes⟩

end Sconsify
